import Mathlib

/-!
Shallow embedding of the frequency-picking harness `dumbhfdl.py`
(repository `kuupaork/airframes_adjacent`, file `src/dumphfdl/dumbhfdl.py`).

Frequencies and timestamps are integers (kHz and Unix seconds); the
maximum bandwidth is a rational number (in the source it is a Python float
obtained as `min(max_window, max_sample_size) * FILTER_FACTOR`).
Python `datetime.now()` is modelled by passing the current time `now`
explicitly.  Fallible operations (raised exceptions) are modelled with
`Option`/`Except`.
-/

namespace Dumbhfdl

/-- `SQUITTER_FRAME_TIME = 6 * 32 * 2` — the squitter pseudoframe quantum, seconds. -/
def SQUITTER_FRAME_TIME : Int := 6 * 32 * 2

/-- `GS_EXPIRY = 2*3600` — ground-station freshness horizon, seconds. -/
def GS_EXPIRY : Int := 2 * 3600

/-- Python `sorted` on a list of integers (ascending, stable). -/
def sortInts (l : List Int) : List Int := List.insertionSort (· ≤ ·) l

/-- `bisect.insort(self.frequencies, frequency)` — insert keeping ascending order
(after any equal elements, as `insort_right` does). -/
def insort (f : Int) : List Int → List Int
  | [] => [f]
  | x :: xs => if x ≤ f then x :: insort f xs else f :: x :: xs

/-- The `FrequencyPool` state: `frequencies`, `ignored_ranges`, `maximum_bandwidth`. -/
structure FrequencyPool where
  frequencies : List Int
  ignored_ranges : List (Int × Int)
  maximum_bandwidth : ℚ
deriving Repr, DecidableEq

/-- `FrequencyPool.__init__(seed, ignored_ranges, maximum_bandwidth)`:
`self.frequencies = list(seed) if seed else []`,
`self.ignored_ranges = ignored_ranges or []` (identity on lists),
`self.maximum_bandwidth = maximum_bandwidth or 2000` (`None` and `0` are falsy). -/
def FrequencyPool.mkPool (seed : Option (List Int)) (ignored_ranges : List (Int × Int))
    (maximum_bandwidth : Option ℚ) : FrequencyPool :=
  { frequencies := seed.getD []
    ignored_ranges := ignored_ranges
    maximum_bandwidth :=
      match maximum_bandwidth with
      | none => 2000
      | some m => if m = 0 then 2000 else m }

/-- `filter_duplicates`: `frequency not in self.frequencies`. -/
def FrequencyPool.filter_duplicates (p : FrequencyPool) (f : Int) : Bool :=
  decide (f ∉ p.frequencies)

/-- `filter_ignored_ranges`: no ignored closed interval contains `frequency`. -/
def FrequencyPool.filter_ignored_ranges (p : FrequencyPool) (f : Int) : Bool :=
  ! p.ignored_ranges.any fun r => decide (r.1 ≤ f ∧ f ≤ r.2)

/-- `can_cover_bandwidth(frequency, others)` (line-for-line from the source):
empty pool, inside the current span, or extending either end while the new
span stays strictly below `maximum_bandwidth`. -/
def FrequencyPool.can_cover_bandwidth (p : FrequencyPool) (f : Int) (others : List Int) : Bool :=
  match others with
  | [] => true
  | x :: xs =>
    let hi := (x :: xs).getLast (List.cons_ne_nil x xs)
    decide (x ≤ f ∧ f ≤ hi)
      || (decide (f < x) && decide (((hi - f : Int) : ℚ) < p.maximum_bandwidth))
      || (decide (hi < f) && decide (((f - x : Int) : ℚ) < p.maximum_bandwidth))

/-- `filter_bandwidth`: `self.can_cover_bandwidth(frequency, self.frequencies)`. -/
def FrequencyPool.filter_bandwidth (p : FrequencyPool) (f : Int) : Bool :=
  p.can_cover_bandwidth f p.frequencies

/-- `FrequencyPool.add`: run the filter pipeline (`filter_none`, `filter_duplicates`,
`filter_ignored_ranges`, `filter_bandwidth`) and insert in sorted position if all pass.
`none` models Python `None` rejected by `filter_none`. -/
def FrequencyPool.add (p : FrequencyPool) (f? : Option Int) : FrequencyPool :=
  match f? with
  | none => p
  | some f =>
    if p.filter_duplicates f && p.filter_ignored_ranges f && p.filter_bandwidth f then
      { p with frequencies := insort f p.frequencies }
    else p

/-- Python list indexing with negative-index support; `none` models an `IndexError`. -/
def pyGet (l : List Int) (i : Int) : Option Int :=
  if 0 ≤ i then l.get? i.toNat
  else if (-i).toNat ≤ l.length then l.get? (l.length - (-i).toNat)
  else none

/-- The pivot-frequency selection of `balancing_iter`; `none` models the `IndexError`
raised when an empty `sources` list is indexed. -/
def balancing_pivot (sources targets0 : List Int) (pivot? : Option Int) : Option Int :=
  let targets := if targets0 = [] then sources else targets0
  let pivot : Int := pivot?.getD ((targets.length : Int) / 2)
  if targets ≠ [] ∧ pivot < (targets.length : Int) then pyGet targets pivot
  else if pivot = -1 then sources.getLast?
  else sources.head?

/-- `balancing_iter(sources, targets, pivot)`: the candidates stably sorted by absolute
distance from the pivot frequency. -/
def balancing_iter (sources targets : List Int) (pivot? : Option Int) : Option (List Int) :=
  (balancing_pivot sources targets pivot?).map fun pf =>
    List.insertionSort (fun a b => |a - pf| ≤ |b - pf|) sources

/-- `FrequencyPool.extend(frequencies, pivot)`: add each candidate in distance order.
When `balancing_iter` raises (`none`), the pool is left untouched. -/
def FrequencyPool.extend (p : FrequencyPool) (frequencies : List Int) (pivot? : Option Int) :
    FrequencyPool :=
  match balancing_iter frequencies p.frequencies pivot? with
  | none => p
  | some ordered => ordered.foldl (fun q f => q.add (some f)) p

/-- One public mutation of a `FrequencyPool`, as in claim C1. -/
inductive PoolOp where
  | add (f? : Option Int)
  | extend (fs : List Int) (pivot? : Option Int)
deriving Repr, DecidableEq

def FrequencyPool.applyOp (p : FrequencyPool) : PoolOp → FrequencyPool
  | .add f? => p.add f?
  | .extend fs pv => p.extend fs pv

def FrequencyPool.runOps (p : FrequencyPool) (ops : List PoolOp) : FrequencyPool :=
  ops.foldl FrequencyPool.applyOp p

/-- The pool invariant of the spec: sorted ascending with no duplicates
(strict sortedness), no element inside an ignored range, and every pairwise
difference (hence `max - min`) bounded by `maximum_bandwidth`. -/
def PoolInv (p : FrequencyPool) : Prop :=
  List.Sorted (· < ·) p.frequencies ∧
  (∀ f ∈ p.frequencies, p.filter_ignored_ranges f = true) ∧
  (∀ a ∈ p.frequencies, ∀ b ∈ p.frequencies, ((a - b : Int) : ℚ) ≤ p.maximum_bandwidth)

instance : DecidablePred PoolInv := fun p => by unfold PoolInv; infer_instance

theorem mem_insort {a f : Int} : ∀ {l : List Int}, a ∈ insort f l ↔ a = f ∨ a ∈ l := by
  intro l
  induction l with
  | nil => simp [insort]
  | cons x xs ih =>
    by_cases h : x ≤ f
    · rw [insort, if_pos h]
      simp only [List.mem_cons, ih]
      tauto
    · rw [insort, if_neg h]
      simp only [List.mem_cons]

theorem sorted_insort {f : Int} : ∀ {l : List Int}, List.Sorted (· < ·) l → f ∉ l →
    List.Sorted (· < ·) (insort f l) := by
  intro l
  induction l with
  | nil => intro _ _; simp [insort]
  | cons x xs ih =>
    intro hs hf
    rw [List.sorted_cons] at hs
    by_cases h : x ≤ f
    · have hxf : x < f := lt_of_le_of_ne h (by intro hxe; exact hf (hxe ▸ List.mem_cons_self x xs))
      rw [insort, if_pos h, List.sorted_cons]
      refine ⟨?_, ih hs.2 (fun hm => hf (List.mem_cons_of_mem x hm))⟩
      intro b hb
      rcases mem_insort.mp hb with hbf | hbx
      · exact hbf ▸ hxf
      · exact hs.1 b hbx
    · push_neg at h
      rw [insort, if_neg (not_le.mpr h), List.sorted_cons]
      refine ⟨?_, List.sorted_cons.mpr hs⟩
      intro b hb
      rcases List.mem_cons.mp hb with hbx | hbxs
      · exact hbx ▸ h
      · exact lt_trans h (hs.1 b hbxs)

theorem sorted_head_le {x : Int} {xs : List Int} (h : List.Sorted (· < ·) (x :: xs)) :
    ∀ b ∈ x :: xs, x ≤ b := by
  intro b hb
  rcases List.mem_cons.mp hb with hbx | hbxs
  · exact hbx ▸ le_refl x
  · exact le_of_lt (List.rel_of_sorted_cons h b hbxs)

theorem mem_le_getLast : ∀ {l : List Int}, List.Sorted (· < ·) l → ∀ (hne : l ≠ [])
    (b : Int), b ∈ l → b ≤ l.getLast hne := by
  intro l
  induction l with
  | nil => intro _ hne; exact absurd rfl hne
  | cons x xs ih =>
    intro h hne b hb
    cases xs with
    | nil =>
      simp only [List.mem_singleton] at hb
      simp [hb]
    | cons y ys =>
      rw [List.getLast_cons (List.cons_ne_nil y ys)]
      rcases List.mem_cons.mp hb with hbx | hbt
      · subst hbx
        have hmem := List.getLast_mem (List.cons_ne_nil y ys)
        exact le_of_lt (List.rel_of_sorted_cons h _ hmem)
      · exact ih (List.sorted_cons.mp h).2 (List.cons_ne_nil y ys) b hbt

theorem span_bound_of {L : List Int} {lo hi : Int} {M : ℚ}
    (hspan : ((hi - lo : Int) : ℚ) ≤ M) (hbd : ∀ c ∈ L, lo ≤ c ∧ c ≤ hi) :
    ∀ a ∈ L, ∀ b ∈ L, ((a - b : Int) : ℚ) ≤ M := by
  intro a ha b hb
  have h1 : a - b ≤ hi - lo := by
    have := (hbd a ha).2
    have := (hbd b hb).1
    omega
  calc ((a - b : Int) : ℚ) ≤ ((hi - lo : Int) : ℚ) := by exact_mod_cast h1
    _ ≤ M := hspan

/-- `add` preserves the pool invariant when `maximum_bandwidth` is nonnegative. -/
theorem add_PoolInv {p : FrequencyPool} (hm : 0 ≤ p.maximum_bandwidth)
    (hI : PoolInv p) (f? : Option Int) : PoolInv (p.add f?) := by
  match f? with
  | none => exact hI
  | some f =>
    rw [FrequencyPool.add]
    by_cases hc : (p.filter_duplicates f && p.filter_ignored_ranges f && p.filter_bandwidth f) = true
    swap
    · rw [if_neg hc]; exact hI
    rw [if_pos hc]
    simp only [Bool.and_eq_true] at hc
    obtain ⟨⟨hdup, hign⟩, hbw⟩ := hc
    rw [FrequencyPool.filter_duplicates, decide_eq_true_eq] at hdup
    obtain ⟨hsort, hignInv, hspanInv⟩ := hI
    refine ⟨sorted_insort hsort hdup, ?_, ?_⟩
    · intro g hg
      rcases mem_insort.mp hg with hgf | hgm
      · exact hgf ▸ hign
      · exact hignInv g hgm
    · rw [FrequencyPool.filter_bandwidth] at hbw
      match hl : p.frequencies with
      | [] =>
        intro a ha b hb
        simp only [insort, List.mem_singleton] at ha hb
        subst ha; subst hb
        simpa using hm
      | x :: xs =>
        rw [hl, FrequencyPool.can_cover_bandwidth] at hbw
        rw [hl] at hsort hspanInv
        simp only [Bool.or_eq_true, Bool.and_eq_true, decide_eq_true_eq] at hbw
        have hxmem : x ∈ x :: xs := List.mem_cons_self x xs
        have hhim : (x :: xs).getLast (List.cons_ne_nil x xs) ∈ x :: xs :=
          List.getLast_mem (List.cons_ne_nil x xs)
        set hi := (x :: xs).getLast (List.cons_ne_nil x xs) with hhidef
        have hxhi : x ≤ hi := sorted_head_le hsort hi hhim
        intro a ha b hb
        rcases hbw with (⟨hxf, hfhi⟩ | ⟨hfx, hwin⟩) | ⟨hhif, hwin⟩
        · refine span_bound_of (hspanInv hi hhim x hxmem) ?_ a ha b hb
          intro c hc
          rcases mem_insort.mp hc with hcf | hcm
          · exact ⟨hcf ▸ hxf, hcf ▸ hfhi⟩
          · exact ⟨sorted_head_le hsort c hcm, mem_le_getLast hsort (List.cons_ne_nil x xs) c hcm⟩
        · refine span_bound_of (le_of_lt hwin) ?_ a ha b hb
          intro c hc
          rcases mem_insort.mp hc with hcf | hcm
          · exact ⟨hcf ▸ le_refl f, hcf ▸ le_trans (le_of_lt hfx) hxhi⟩
          · exact ⟨le_trans (le_of_lt hfx) (sorted_head_le hsort c hcm),
              mem_le_getLast hsort (List.cons_ne_nil x xs) c hcm⟩
        · refine span_bound_of (le_of_lt hwin) ?_ a ha b hb
          intro c hc
          rcases mem_insort.mp hc with hcf | hcm
          · exact ⟨hcf ▸ le_trans hxhi (le_of_lt hhif), hcf ▸ le_refl f⟩
          · exact ⟨sorted_head_le hsort c hcm,
              le_trans (mem_le_getLast hsort (List.cons_ne_nil x xs) c hcm) (le_of_lt hhif)⟩

theorem add_fields {p : FrequencyPool} (f? : Option Int) :
    (p.add f?).ignored_ranges = p.ignored_ranges ∧
    (p.add f?).maximum_bandwidth = p.maximum_bandwidth := by
  match f? with
  | none => exact ⟨rfl, rfl⟩
  | some f =>
    rw [FrequencyPool.add]
    by_cases hc : (p.filter_duplicates f && p.filter_ignored_ranges f && p.filter_bandwidth f) = true
    · rw [if_pos hc]; exact ⟨rfl, rfl⟩
    · rw [if_neg hc]; exact ⟨rfl, rfl⟩

theorem foldl_add_PoolInv {l : List Int} : ∀ {p : FrequencyPool},
    0 ≤ p.maximum_bandwidth → PoolInv p →
    PoolInv (l.foldl (fun q f => q.add (some f)) p) ∧
    (l.foldl (fun q f => q.add (some f)) p).maximum_bandwidth = p.maximum_bandwidth := by
  induction l with
  | nil => intro p hm hI; exact ⟨hI, rfl⟩
  | cons x xs ih =>
    intro p hm hI
    have hstep := add_PoolInv hm hI (some x)
    have hf := (add_fields (p := p) (some x)).2
    have := ih (p := p.add (some x)) (hf ▸ hm) hstep
    simp only [List.foldl_cons]
    exact ⟨this.1, this.2.trans hf⟩

theorem applyOp_PoolInv {p : FrequencyPool} (hm : 0 ≤ p.maximum_bandwidth)
    (hI : PoolInv p) (op : PoolOp) :
    PoolInv (p.applyOp op) ∧ (p.applyOp op).maximum_bandwidth = p.maximum_bandwidth := by
  match op with
  | .add f? => exact ⟨add_PoolInv hm hI f?, (add_fields f?).2⟩
  | .extend fs pv =>
    rw [FrequencyPool.applyOp, FrequencyPool.extend]
    match balancing_iter fs p.frequencies pv with
    | none => exact ⟨hI, rfl⟩
    | some ordered => exact foldl_add_PoolInv hm hI

theorem runOps_PoolInv {ops : List PoolOp} : ∀ {p : FrequencyPool},
    0 ≤ p.maximum_bandwidth → PoolInv p → PoolInv (p.runOps ops) := by
  induction ops with
  | nil => intro p _ hI; exact hI
  | cons op rest ih =>
    intro p hm hI
    have h := applyOp_PoolInv hm hI op
    exact ih (p := p.applyOp op) (h.2 ▸ hm) h.1

/-- C1 (amended): for every `FrequencyPool` constructed without a seed whose effective
`maximum_bandwidth` is nonnegative, and for every sequence of `add`/`extend` calls with
arbitrary frequency lists and pivots, the pool stays sorted ascending without duplicates,
contains no element of an ignored range, and every pairwise difference of its elements
(in particular `max - min`) is at most `maximum_bandwidth`.  The nonnegativity hypothesis
is forced by the counterexample below. -/
theorem C1_pool_invariant (maximum_bandwidth : Option ℚ) (ignored_ranges : List (Int × Int))
    (ops : List PoolOp)
    (h : 0 ≤ (FrequencyPool.mkPool none ignored_ranges maximum_bandwidth).maximum_bandwidth) :
    PoolInv ((FrequencyPool.mkPool none ignored_ranges maximum_bandwidth).runOps ops) := by
  refine runOps_PoolInv h ⟨?_, ?_, ?_⟩ <;> simp [FrequencyPool.mkPool]

/-- C1 witness: a concrete run of the amended theorem. -/
theorem C1_pool_invariant_witness :
    PoolInv ((FrequencyPool.mkPool none [(0, 4999)] (some 2000)).runOps
      [PoolOp.extend [5000, 5500, 6000, 8000] (some 0), PoolOp.add (some 6100)]) :=
  C1_pool_invariant (some 2000) [(0, 4999)]
    [PoolOp.extend [5000, 5500, 6000, 8000] (some 0), PoolOp.add (some 6100)] (by decide)

/-- C1 counterexample: the claim quantifies over any `maximum_bandwidth`, but a pool
constructed with `maximum_bandwidth = -1` accepts a first frequency through the
empty-pool branch of `can_cover_bandwidth`, after which `max - min = 0 > -1`;
the claimed span invariant fails. -/
theorem C1_pool_invariant_counterexample :
    ((FrequencyPool.mkPool none [] (some (-1))).runOps [PoolOp.add (some 100)]).frequencies
        = [100] ∧
    ¬ PoolInv ((FrequencyPool.mkPool none [] (some (-1))).runOps [PoolOp.add (some 100)]) := by
  constructor
  · rfl
  · decide

/-- C10 (confirmed): `FrequencyPool.__init__` copies a seed verbatim — no null, duplicate,
ignored-range or bandwidth filtering and no re-sorting — so a seeded pool can start in a
state violating the invariants that `add`/`extend` maintain (here: unsorted, duplicated,
inside an ignored range). -/
theorem C10_seed_copied_unfiltered :
    (∀ (s : List Int) (ir : List (Int × Int)) (mb : Option ℚ),
      (FrequencyPool.mkPool (some s) ir mb).frequencies = s) ∧
    ¬ PoolInv (FrequencyPool.mkPool (some [7, 3, 3]) [(2, 4)] (some 100)) := by
  constructor
  · intro s ir mb; rfl
  · decide

/-! ## GroundStation -/

/-- A `GroundStation` record.  `gsid = none` models the class default `"unknown"`;
`name = none` models Python `None`.  The packet counters and per-frequency stats are
never touched by the merge operations and are omitted. -/
structure GroundStation where
  last_updated : Int := 0
  frequencies : List Int := []
  dirty : Bool := false
  temporary : Bool := false
  name : Option String := none
  gsid : Option Int := none
deriving Repr, DecidableEq, Inhabited

/-- `__setattr__` side effect: assigning a different value to `last_updated` marks the
record dirty and clears `temporary`. -/
def GroundStation.setLastUpdated (s : GroundStation) (v : Int) : GroundStation :=
  if v ≠ s.last_updated then { s with last_updated := v, dirty := true, temporary := false }
  else { s with last_updated := v }

/-- `__setattr__` side effect for `frequencies`. -/
def GroundStation.setFrequencies (s : GroundStation) (v : List Int) : GroundStation :=
  if v ≠ s.frequencies then { s with frequencies := v, dirty := true, temporary := false }
  else { s with frequencies := v }

/-- `__setattr__` side effect for `name`. -/
def GroundStation.setName (s : GroundStation) (v : Option String) : GroundStation :=
  if v ≠ s.name then { s with name := v, dirty := true, temporary := false }
  else { s with name := v }

/-- `__setattr__` side effect for `gsid`. -/
def GroundStation.setGsid (s : GroundStation) (v : Option Int) : GroundStation :=
  if v ≠ s.gsid then { s with gsid := v, dirty := true, temporary := false }
  else { s with gsid := v }

/-- `is_new_pseudoframe(timestamp)`: the incoming timestamp lands in a strictly later
pseudoframe window (Python floor division `//`). -/
def GroundStation.is_new_pseudoframe (s : GroundStation) (timestamp : Int) : Bool :=
  decide (Int.fdiv s.last_updated SQUITTER_FRAME_TIME < Int.fdiv timestamp SQUITTER_FRAME_TIME)

/-- `mark_clean()`. -/
def GroundStation.mark_clean (s : GroundStation) : GroundStation := { s with dirty := false }

/-- `is_valid()`: fresh within the expiry horizon and non-empty frequency list. -/
def GroundStation.is_valid (now : Int) (s : GroundStation) : Bool :=
  decide (now - GS_EXPIRY ≤ s.last_updated) && decide (s.frequencies ≠ [])

/-- `update_from_station(data)`: merge another registry's record of the same station. -/
def GroundStation.update_from_station (s data : GroundStation) : GroundStation :=
  if s.is_new_pseudoframe data.last_updated || s.temporary then
    let s1 := s.setLastUpdated data.last_updated
    let s2 := s1.setGsid data.gsid
    let s3 := s2.setName data.name
    let s4 := s3.setFrequencies data.frequencies
    { s4 with temporary := data.temporary }
  else s

/-- One station record of a directory-shaped JSON payload
(`{id, name, frequencies:{active:[...]}, last_updated}`).  `id = none` models a
non-integer id (the `KeyError` path of `merge_airframes` skips it). -/
structure AirframesStation where
  id : Option Int
  name : Option String
  active : List Int
  last_updated : Int
deriving Repr, DecidableEq

/-- A negative `last_updated` is an offset from "now". -/
def AirframesStation.effective_last_updated (data : AirframesStation) (now : Int) : Int :=
  if data.last_updated < 0 then data.last_updated + now else data.last_updated

/-- `update_from_airframes(data, mark_clean, temporary)`: merge a directory-snapshot
record.  Acceptance requires a pseudoframe advance AND
(`self.temporary or not temporary or not self.last_updated`). -/
def GroundStation.update_from_airframes (s : GroundStation) (data : AirframesStation)
    (mark_clean temporary : Bool) (now : Int) : GroundStation :=
  let last_updated := data.effective_last_updated now
  if s.is_new_pseudoframe last_updated &&
      (s.temporary || !temporary || decide (s.last_updated = 0)) then
    let s1 := s.setLastUpdated last_updated
    let s2 := s1.setGsid data.id
    let s3 := s2.setName data.name
    let s4 := s3.setFrequencies (sortInts data.active)
    let s5 := { s4 with temporary := temporary }
    if mark_clean || temporary then s5.mark_clean else s5
  else s

/-- A live-telemetry station entry: `{gs:{id,name}}` plus the announced (`freqs`) or
heard-on (`heard_on_freqs`) frequency list, after `int(...)` conversion. -/
structure SquitterEntry where
  gsid : Int
  name : String
  freqs : List Int
deriving Repr, DecidableEq

/-- `update_from_squitter(data, last_updated)`: pseudoframe-advance rule, but also
accepted unconditionally when the announced frequency set differs from the stored one. -/
def GroundStation.update_from_squitter (s : GroundStation) (data : SquitterEntry)
    (last_updated : Int) : GroundStation :=
  let nf := sortInts data.freqs
  if s.temporary || s.is_new_pseudoframe last_updated || decide (nf ≠ s.frequencies) then
    let s1 := s.setLastUpdated last_updated
    let s2 := s1.setGsid (some data.gsid)
    let s3 := s2.setName (some data.name)
    s3.setFrequencies nf
  else s

/-- `update_from_hfnpdu(data, last_updated)`: heard-on-frequency backfill, accepted when
the record is `temporary` or has no timestamp, and the heard list is non-empty. -/
def GroundStation.update_from_hfnpdu (s : GroundStation) (data : SquitterEntry)
    (last_updated : Int) : GroundStation :=
  if (s.temporary || decide (s.last_updated = 0)) && decide (data.freqs ≠ []) then
    let s1 := s.setLastUpdated last_updated
    let s2 := s1.setGsid (some data.gsid)
    let s3 := s2.setName (some data.name)
    s3.setFrequencies (sortInts data.freqs)
  else s

theorem setLastUpdated_fields (s : GroundStation) (v : Int) :
    (s.setLastUpdated v).last_updated = v ∧
    (s.setLastUpdated v).frequencies = s.frequencies ∧
    (s.setLastUpdated v).name = s.name ∧
    (s.setLastUpdated v).gsid = s.gsid := by
  rw [GroundStation.setLastUpdated]; split <;> exact ⟨rfl, rfl, rfl, rfl⟩

theorem setGsid_fields (s : GroundStation) (v : Option Int) :
    (s.setGsid v).gsid = v ∧
    (s.setGsid v).last_updated = s.last_updated ∧
    (s.setGsid v).frequencies = s.frequencies ∧
    (s.setGsid v).name = s.name := by
  rw [GroundStation.setGsid]; split <;> exact ⟨rfl, rfl, rfl, rfl⟩

theorem setName_fields (s : GroundStation) (v : Option String) :
    (s.setName v).name = v ∧
    (s.setName v).last_updated = s.last_updated ∧
    (s.setName v).frequencies = s.frequencies ∧
    (s.setName v).gsid = s.gsid := by
  rw [GroundStation.setName]; split <;> exact ⟨rfl, rfl, rfl, rfl⟩

theorem setFrequencies_fields (s : GroundStation) (v : List Int) :
    (s.setFrequencies v).frequencies = v ∧
    (s.setFrequencies v).last_updated = s.last_updated ∧
    (s.setFrequencies v).name = s.name ∧
    (s.setFrequencies v).gsid = s.gsid := by
  rw [GroundStation.setFrequencies]; split <;> exact ⟨rfl, rfl, rfl, rfl⟩

theorem mark_clean_fields (s : GroundStation) :
    s.mark_clean.last_updated = s.last_updated ∧
    s.mark_clean.frequencies = s.frequencies ∧
    s.mark_clean.name = s.name ∧
    s.mark_clean.gsid = s.gsid ∧
    s.mark_clean.temporary = s.temporary :=
  ⟨rfl, rfl, rfl, rfl, rfl⟩

/-- C4 (amended): a non-temporary record is left completely unchanged by a
registry-record merge that does not advance its pseudoframe window, and ANY record
(temporary or not) is left unchanged by a directory-snapshot merge that does not advance
its pseudoframe window; a temporary record accepts a registry-record merge
unconditionally, but accepts a directory-snapshot merge only when the timestamp does
advance the pseudoframe window, in which case id, name, frequency set and timestamp are
replaced atomically. -/
theorem C4_pseudoframe_monotonic (s data : GroundStation) (rec : AirframesStation)
    (mark_clean temporary : Bool) (now : Int) :
    (s.temporary = false → s.is_new_pseudoframe data.last_updated = false →
      s.update_from_station data = s) ∧
    (s.is_new_pseudoframe (rec.effective_last_updated now) = false →
      s.update_from_airframes rec mark_clean temporary now = s) ∧
    (s.temporary = true →
      (s.update_from_station data).last_updated = data.last_updated ∧
      (s.update_from_station data).gsid = data.gsid ∧
      (s.update_from_station data).name = data.name ∧
      (s.update_from_station data).frequencies = data.frequencies ∧
      (s.update_from_station data).temporary = data.temporary) ∧
    (s.temporary = true → s.is_new_pseudoframe (rec.effective_last_updated now) = true →
      (s.update_from_airframes rec mark_clean temporary now).last_updated
          = rec.effective_last_updated now ∧
      (s.update_from_airframes rec mark_clean temporary now).gsid = rec.id ∧
      (s.update_from_airframes rec mark_clean temporary now).name = rec.name ∧
      (s.update_from_airframes rec mark_clean temporary now).frequencies
          = sortInts rec.active ∧
      (s.update_from_airframes rec mark_clean temporary now).temporary = temporary) := by
  refine ⟨?_, ?_, ?_, ?_⟩
  · intro htemp hnew
    rw [GroundStation.update_from_station, if_neg]
    simp [htemp, hnew]
  · intro hnew
    simp [GroundStation.update_from_airframes, hnew]
  · intro htemp
    rw [GroundStation.update_from_station, if_pos (by simp [htemp])]
    simp [setLastUpdated_fields, setGsid_fields, setName_fields, setFrequencies_fields]
  · intro htemp hnew
    rw [GroundStation.update_from_airframes]
    simp only [hnew, htemp, Bool.true_or, Bool.or_true, Bool.true_and, Bool.and_true,
      if_true]
    split <;>
      simp [GroundStation.mark_clean, setLastUpdated_fields, setGsid_fields,
        setName_fields, setFrequencies_fields]

/-- C4 witness: concrete runs of the amended theorem — a stale-timestamped
registry-record merge on a non-temporary record is a no-op, while a temporary record
accepts the registry-record merge. -/
theorem C4_pseudoframe_monotonic_witness :
    GroundStation.update_from_station
        { last_updated := 1000, frequencies := [1], name := some "A", gsid := some 1 }
        { last_updated := 900, frequencies := [2], name := some "B", gsid := some 2 }
      = { last_updated := 1000, frequencies := [1], name := some "A", gsid := some 1 } ∧
    (GroundStation.update_from_station
        { last_updated := 1000, frequencies := [1], temporary := true,
          name := some "A", gsid := some 1 }
        { last_updated := 900, frequencies := [2], name := some "B", gsid := some 2 }
      ).frequencies = [2] :=
  ⟨(C4_pseudoframe_monotonic
      { last_updated := 1000, frequencies := [1], name := some "A", gsid := some 1 }
      { last_updated := 900, frequencies := [2], name := some "B", gsid := some 2 }
      ⟨some 1, some "A", [1], 1000⟩ false false 0).1 (by decide) (by decide),
   ((C4_pseudoframe_monotonic
      { last_updated := 1000, frequencies := [1], temporary := true,
        name := some "A", gsid := some 1 }
      { last_updated := 900, frequencies := [2], name := some "B", gsid := some 2 }
      ⟨some 1, some "A", [1], 1000⟩ false false 0).2.2.1 (by decide)).2.2.2.1⟩

/-- C4 counterexample: a temporary record does NOT accept a directory-snapshot
(`update_from_airframes`) merge whose timestamp stays inside the current pseudoframe
window — the acceptance condition conjoins the pseudoframe advance with the trust check,
so `temporary` alone never suffices for this source, contradicting the claim that a
temporary record accepts the update. -/
theorem C4_temporary_airframes_counterexample :
    GroundStation.update_from_airframes
        { last_updated := 1000, frequencies := [1], temporary := true,
          name := some "A", gsid := some 1 }
        ⟨some 1, some "A", [2], 1000⟩ false false 0
      = { last_updated := 1000, frequencies := [1], temporary := true,
          name := some "A", gsid := some 1 } ∧
    sortInts [2] ≠ [1] := by
  exact ⟨by decide, by decide⟩

/-! ## C7: the `frequencies` invariant under every merge kind -/

/-- One merge operation on a single `GroundStation`, of any of the four source kinds. -/
inductive StationOp where
  | fromStation (data : GroundStation)
  | fromAirframes (data : AirframesStation) (mark_clean temporary : Bool) (now : Int)
  | fromSquitter (data : SquitterEntry) (last_updated : Int)
  | fromHfnpdu (data : SquitterEntry) (last_updated : Int)
deriving Repr, DecidableEq

def GroundStation.applyStationOp (s : GroundStation) : StationOp → GroundStation
  | .fromStation data => s.update_from_station data
  | .fromAirframes data mc tmp now => s.update_from_airframes data mc tmp now
  | .fromSquitter data lu => s.update_from_squitter data lu
  | .fromHfnpdu data lu => s.update_from_hfnpdu data lu

/-- Payload well-formedness: the incoming frequency list is duplicate-free (for a
registry-record merge: the source record already satisfies the invariant). -/
def StationOp.dupFree : StationOp → Prop
  | .fromStation data => List.Sorted (· < ·) data.frequencies
  | .fromAirframes data _ _ _ => data.active.Nodup
  | .fromSquitter data _ => data.freqs.Nodup
  | .fromHfnpdu data _ => data.freqs.Nodup

instance : DecidablePred StationOp.dupFree := by
  intro op; unfold StationOp.dupFree; match op with
  | .fromStation _ => infer_instance
  | .fromAirframes _ _ _ _ => infer_instance
  | .fromSquitter _ _ => infer_instance
  | .fromHfnpdu _ _ => infer_instance

/-- Python `sorted` of a duplicate-free integer list is strictly sorted. -/
theorem sorted_lt_sortInts {l : List Int} (h : l.Nodup) :
    List.Sorted (· < ·) (sortInts l) :=
  List.Sorted.lt_of_le (List.sorted_insertionSort _ l)
    (h.perm (List.perm_insertionSort _ l).symm)

theorem applyStationOp_sorted {s : GroundStation}
    (hs : List.Sorted (· < ·) s.frequencies) {op : StationOp} (hop : op.dupFree) :
    List.Sorted (· < ·) ((s.applyStationOp op).frequencies) := by
  match op with
  | .fromStation data =>
    rw [GroundStation.applyStationOp, GroundStation.update_from_station]
    split
    · simpa [setLastUpdated_fields, setGsid_fields, setName_fields,
        setFrequencies_fields] using hop
    · exact hs
  | .fromAirframes data mc tmp now =>
    rw [GroundStation.applyStationOp, GroundStation.update_from_airframes]
    simp only []
    split
    · split <;>
        · simp only [GroundStation.mark_clean, setLastUpdated_fields, setGsid_fields,
            setName_fields, setFrequencies_fields]
          exact sorted_lt_sortInts hop
    · exact hs
  | .fromSquitter data lu =>
    rw [GroundStation.applyStationOp, GroundStation.update_from_squitter]
    split
    · simp only [setLastUpdated_fields, setGsid_fields, setName_fields,
        setFrequencies_fields]
      exact sorted_lt_sortInts hop
    · exact hs
  | .fromHfnpdu data lu =>
    rw [GroundStation.applyStationOp, GroundStation.update_from_hfnpdu]
    split
    · simp only [setLastUpdated_fields, setGsid_fields, setName_fields,
        setFrequencies_fields]
      exact sorted_lt_sortInts hop
    · exact hs

/-- C7 (amended): starting from any record whose `frequencies` is sorted ascending with
no duplicates (e.g. the freshly created default), every sequence of merge operations of
any kind keeps `frequencies` sorted ascending with no duplicates, PROVIDED each incoming
payload's frequency list is itself duplicate-free (the code sorts incoming lists but
never deduplicates them; the counterexample below shows the unconditional claim fails). -/
theorem C7_frequencies_sorted_nodup (ops : List StationOp) (s : GroundStation)
    (hs : List.Sorted (· < ·) s.frequencies) (hwf : ∀ op ∈ ops, op.dupFree) :
    List.Sorted (· < ·) ((ops.foldl GroundStation.applyStationOp s).frequencies) := by
  induction ops generalizing s with
  | nil => exact hs
  | cons op rest ih =>
    exact ih (s.applyStationOp op)
      (applyStationOp_sorted hs (hwf op (List.mem_cons_self op rest)))
      (fun o ho => hwf o (List.mem_cons_of_mem op ho))

/-- C7 witness: a concrete run of the amended theorem through a squitter merge and a
backfill merge. -/
theorem C7_frequencies_sorted_nodup_witness :
    List.Sorted (· < ·)
      (([StationOp.fromSquitter ⟨1, "X", [5100, 5000]⟩ 1000,
         StationOp.fromHfnpdu ⟨1, "X", [4000]⟩ 1200].foldl
          GroundStation.applyStationOp {}).frequencies) :=
  C7_frequencies_sorted_nodup
    [StationOp.fromSquitter ⟨1, "X", [5100, 5000]⟩ 1000,
     StationOp.fromHfnpdu ⟨1, "X", [4000]⟩ 1200] {} (by decide) (by decide)

/-- C7 counterexample: with an arbitrary payload that lists the same frequency twice,
a squitter merge stores `sorted([5000, 5000]) = [5000, 5000]` — sorted but with a
duplicate — so the claimed no-duplicates invariant fails for arbitrary payloads. -/
theorem C7_duplicate_payload_counterexample :
    (GroundStation.update_from_squitter {} ⟨1, "X", [5000, 5000]⟩ 1000).frequencies
        = [5000, 5000] ∧
    ¬ List.Sorted (· < ·)
        (GroundStation.update_from_squitter {} ⟨1, "X", [5000, 5000]⟩ 1000).frequencies := by
  exact ⟨by decide, by decide⟩

/-- C8 (amended): a heard-on-frequency (`update_from_hfnpdu`) backfill never changes a
record that is non-temporary and has a timestamp; it is accepted only to fill a record
that is `temporary` or has no timestamp at all (the counterexample shows a populated
TEMPORARY record is overwritten, so "populated" alone does not protect a record). -/
theorem C8_hfnpdu_never_overwrites_populated (s : GroundStation) (data : SquitterEntry)
    (last_updated : Int) (htemp : s.temporary = false) (hlu : s.last_updated ≠ 0) :
    s.update_from_hfnpdu data last_updated = s := by
  rw [GroundStation.update_from_hfnpdu, if_neg]
  simp [htemp, hlu]

/-- C8 witness: a concrete no-op backfill on a populated, non-temporary record. -/
theorem C8_hfnpdu_never_overwrites_populated_witness :
    GroundStation.update_from_hfnpdu
        { last_updated := 1000, frequencies := [1], name := some "A", gsid := some 1 }
        ⟨2, "B", [2]⟩ 900
      = { last_updated := 1000, frequencies := [1], name := some "A", gsid := some 1 } :=
  C8_hfnpdu_never_overwrites_populated
    { last_updated := 1000, frequencies := [1], name := some "A", gsid := some 1 }
    ⟨2, "B", [2]⟩ 900 (by decide) (by decide)

/-- C8 counterexample: a POPULATED record (timestamp 1000) that is `temporary` IS
overwritten by a backfill, because the code's guard is
`self.temporary or not self.last_updated`, contradicting the claim that a populated
record is always left unchanged. -/
theorem C8_temporary_populated_overwritten_counterexample :
    ({ last_updated := 1000, frequencies := [1], temporary := true,
        name := some "A", gsid := some 1 } : GroundStation).last_updated ≠ 0 ∧
    (GroundStation.update_from_hfnpdu
        { last_updated := 1000, frequencies := [1], temporary := true,
          name := some "A", gsid := some 1 }
        ⟨2, "B", [2]⟩ 900).frequencies = [2] := by
  exact ⟨by decide, by decide⟩

/-! ## GroundStationCache -/

/-- A key of the `stations_by_id` dict: an integer id, or `none` for the string key
`"unknown"` (the class default `gsid`); the string key never compares equal to an
integer key in Python, which `Option` mirrors. -/
abbrev StationKey := Option Int

/-- A directory-shaped JSON payload (`{is_temporary?, ground_stations: [...]}`).
A fetch that failed or returned unparseable data is the empty payload `{}`. -/
structure AirframesPayload where
  is_temporary : Bool := false
  ground_stations : List AirframesStation := []
deriving Repr, DecidableEq

def hasStationKey (m : List (StationKey × GroundStation)) (k : StationKey) : Bool :=
  m.any fun e => decide (e.1 = k)

def lookupStation (m : List (StationKey × GroundStation)) (k : StationKey) :
    Option GroundStation :=
  (m.find? fun e => decide (e.1 = k)).map (·.2)

/-- `del self.stations_by_id[k]` (keys are unique, so filtering is deletion). -/
def eraseStationKey (m : List (StationKey × GroundStation)) (k : StationKey) :
    List (StationKey × GroundStation) :=
  m.filter fun e => !(decide (e.1 = k))

/-- `self.stations_by_id[k]` followed by an in-place mutation: the `defaultdict`
inserts a fresh default record when the key is absent. -/
def touchStation (m : List (StationKey × GroundStation)) (k : StationKey)
    (f : GroundStation → GroundStation) : List (StationKey × GroundStation) :=
  if hasStationKey m k then m.map fun e => if e.1 = k then (e.1, f e.2) else e
  else m ++ [(k, f {})]

/-- `GroundStation.dict()`: `None` for a temporary record, else its serializable form. -/
def GroundStation.dict (s : GroundStation) : Option AirframesStation :=
  if s.temporary then none
  else some ⟨s.gsid, s.name, s.frequencies, s.last_updated⟩

/-- The registry.  `stations` models the insertion-ordered `stations_by_id` dict;
`last` models `self.last` — raw snapshot text after `load()` (`Sum.inl`), the serialized
station list after `save()` (`Sum.inr`), or `None`; `written` records every snapshot
actually written to disk, most recent first; `hasPath` tells whether a cache path was
configured.  The rebuilt `stations_by_name` index and the packet-rate stats are omitted
(no claim touches them). -/
structure GroundStationCache where
  stations : List (StationKey × GroundStation) := []
  last : Option (String ⊕ List AirframesStation) := none
  hasPath : Bool := false
  written : List (List AirframesStation) := []
deriving Repr, DecidableEq

/-- `dict()['ground_stations']`. -/
def GroundStationCache.dictGS (c : GroundStationCache) : List AirframesStation :=
  c.stations.filterMap fun e => e.2.dict

/-- One iteration of the `prune_expired` loop body. -/
def pruneStep (now : Int) (acc : List (StationKey × GroundStation)) (s : GroundStation) :
    List (StationKey × GroundStation) :=
  if !(GroundStation.is_valid now s) && hasStationKey acc s.gsid then
    eraseStationKey acc s.gsid
  else acc

/-- `prune_expired()`: iterate over a snapshot (`list(...values())`) of the stations,
deleting the entry at key `station.gsid` whenever the station is invalid and that key is
currently present. -/
def GroundStationCache.prune_expired (c : GroundStationCache) (now : Int) :
    GroundStationCache :=
  { c with stations := (c.stations.map Prod.snd).foldl (pruneStep now) c.stations }

/-- `save()`: when a path is configured and the current dict differs from `self.last`,
remember the dict and write the snapshot.  (The trailing
`map(lambda that: that.mark_clean(), ...)` in the source is a lazy iterator that is
never consumed, so it has no effect and is omitted.) -/
def GroundStationCache.save (c : GroundStationCache) : GroundStationCache :=
  if c.hasPath then
    if (some (Sum.inr c.dictGS) : Option (String ⊕ List AirframesStation)) ≠ c.last then
      { c with last := some (Sum.inr c.dictGS), written := c.dictGS :: c.written }
    else c
  else c

/-- `merge_airframes(airframes, mark_clean)`: update each payload record into the
station keyed by its integer id (a non-integer id takes the `KeyError` path and is
skipped), then prune and save. -/
def GroundStationCache.merge_airframes (c : GroundStationCache)
    (airframes : AirframesPayload) (mark_clean : Bool) (now : Int) : GroundStationCache :=
  let temporary := airframes.is_temporary
  let st := airframes.ground_stations.foldl
    (fun m gs =>
      match gs.id with
      | some i =>
        touchStation m (some i) fun s => s.update_from_airframes gs mark_clean temporary now
      | none => m)
    c.stations
  (({ c with stations := st }).prune_expired now).save

/-- `merge(other)`: fold the other registry's records in via `update_from_station`,
keyed by each record's own `gsid`, then prune and save. -/
def GroundStationCache.merge (c other : GroundStationCache) (now : Int) :
    GroundStationCache :=
  let st := other.stations.foldl
    (fun m e => touchStation m e.2.gsid fun s => s.update_from_station e.2)
    c.stations
  (({ c with stations := st }).prune_expired now).save

/-- `load()`: when a path is configured and the file exists (`file = some raw`) with
non-empty text, store the RAW TEXT in `self.last` and merge the parsed payload with
`mark_clean = True`. -/
def GroundStationCache.load (c : GroundStationCache) (file : Option String)
    (payload : AirframesPayload) (now : Int) : GroundStationCache :=
  match file with
  | none => c
  | some raw =>
    if c.hasPath && decide (raw ≠ "") then
      ({ c with last := some (Sum.inl raw) }).merge_airframes payload true now
    else c

/-- `self[key]` for an integer key: `defaultdict` lookup that inserts a fresh default
record when the key is absent. -/
def GroundStationCache.getById (c : GroundStationCache) (i : Int) :
    GroundStationCache × GroundStation :=
  match lookupStation c.stations (some i) with
  | some s => (c, s)
  | none => ({ c with stations := c.stations ++ [(some i, {})] }, {})

theorem hasStationKey_iff {m : List (StationKey × GroundStation)} {k : StationKey} :
    hasStationKey m k = true ↔ ∃ e ∈ m, e.1 = k := by
  simp [hasStationKey, List.any_eq_true]

theorem hasKey_erase_self (m : List (StationKey × GroundStation)) (k : StationKey) :
    hasStationKey (eraseStationKey m k) k = false := by
  rw [Bool.eq_false_iff]
  intro h
  obtain ⟨e, he, hk⟩ := hasStationKey_iff.mp h
  rw [eraseStationKey, List.mem_filter] at he
  simp [hk] at he

theorem mem_of_mem_pruneStep {now : Int} {acc : List (StationKey × GroundStation)}
    {s : GroundStation} {e : StationKey × GroundStation} (h : e ∈ pruneStep now acc s) :
    e ∈ acc := by
  rw [pruneStep] at h
  split at h
  · exact List.mem_of_mem_filter h
  · exact h

theorem mem_of_mem_foldl_pruneStep {now : Int} :
    ∀ {l : List GroundStation} {acc : List (StationKey × GroundStation)}
      {e : StationKey × GroundStation}, e ∈ l.foldl (pruneStep now) acc → e ∈ acc := by
  intro l
  induction l with
  | nil => intro acc e h; exact h
  | cons x xs ih =>
    intro acc e h
    exact mem_of_mem_pruneStep (ih h)

theorem hasKey_pruneStep_mono {now : Int} {acc : List (StationKey × GroundStation)}
    {s : GroundStation} {k : StationKey} (h : hasStationKey acc k = false) :
    hasStationKey (pruneStep now acc s) k = false := by
  rw [Bool.eq_false_iff]
  intro hk
  obtain ⟨e, he, hek⟩ := hasStationKey_iff.mp hk
  have : hasStationKey acc k = true :=
    hasStationKey_iff.mpr ⟨e, mem_of_mem_pruneStep he, hek⟩
  rw [h] at this
  exact Bool.false_ne_true this

theorem hasKey_pruneStep_self {now : Int} {acc : List (StationKey × GroundStation)}
    {s : GroundStation} (h : GroundStation.is_valid now s = false) :
    hasStationKey (pruneStep now acc s) s.gsid = false := by
  rw [pruneStep, h]
  simp only [Bool.not_false, Bool.true_and]
  by_cases hk : hasStationKey acc s.gsid = true
  · rw [if_pos hk]
    exact hasKey_erase_self acc s.gsid
  · rw [if_neg hk]
    exact Bool.eq_false_iff.mpr hk

theorem hasKey_foldl_pruneStep_mono {now : Int} :
    ∀ {l : List GroundStation} {acc : List (StationKey × GroundStation)} {k : StationKey},
      hasStationKey acc k = false →
      hasStationKey (l.foldl (pruneStep now) acc) k = false := by
  intro l
  induction l with
  | nil => intro acc k h; exact h
  | cons x xs ih => intro acc k h; exact ih (hasKey_pruneStep_mono h)

theorem hasKey_foldl_pruneStep_of_invalid {now : Int} :
    ∀ {l : List GroundStation} {acc : List (StationKey × GroundStation)}
      {s : GroundStation}, s ∈ l → GroundStation.is_valid now s = false →
      hasStationKey (l.foldl (pruneStep now) acc) s.gsid = false := by
  intro l
  induction l with
  | nil => intro acc s h; exact absurd h (List.not_mem_nil s)
  | cons x xs ih =>
    intro acc s hmem hinv
    rw [List.foldl_cons]
    rcases List.mem_cons.mp hmem with hx | hxs
    · subst hx
      exact hasKey_foldl_pruneStep_mono (hasKey_pruneStep_self hinv)
    · exact ih hxs hinv

theorem foldl_pruneStep_fixed {now : Int} {M : List (StationKey × GroundStation)} :
    ∀ {l : List GroundStation}, (∀ s ∈ l, pruneStep now M s = M) →
      l.foldl (pruneStep now) M = M := by
  intro l
  induction l with
  | nil => intro _; rfl
  | cons x xs ih =>
    intro h
    have hx := h x (List.mem_cons_self x xs)
    rw [List.foldl_cons, hx]
    exact ih fun s hs => h s (List.mem_cons_of_mem x hs)

/-- C9 (confirmed): at a fixed current time, pruning twice in a row yields exactly the
same registry as pruning once — after one prune, every station that is still invalid has
already had its key deleted, so a second pass removes nothing. -/
theorem C9_prune_expired_idempotent (c : GroundStationCache) (now : Int) :
    (c.prune_expired now).prune_expired now = c.prune_expired now := by
  rw [GroundStationCache.prune_expired, GroundStationCache.prune_expired]
  have hfix : ((((c.stations.map Prod.snd).foldl (pruneStep now) c.stations).map
      Prod.snd).foldl (pruneStep now)
      ((c.stations.map Prod.snd).foldl (pruneStep now) c.stations)) =
      (c.stations.map Prod.snd).foldl (pruneStep now) c.stations := by
    apply foldl_pruneStep_fixed
    intro s hs
    obtain ⟨e, he, hes⟩ := List.mem_map.mp hs
    have heM : e ∈ c.stations := mem_of_mem_foldl_pruneStep he
    by_cases hv : GroundStation.is_valid now s = true
    · simp [pruneStep, hv]
    · have hinv : GroundStation.is_valid now s = false := Bool.eq_false_iff.mpr hv
      have hnk : hasStationKey ((c.stations.map Prod.snd).foldl (pruneStep now)
          c.stations) s.gsid = false :=
        hasKey_foldl_pruneStep_of_invalid
          (List.mem_map.mpr ⟨e, heM, hes⟩) hinv
      simp [pruneStep, hnk]
  simp only [hfix]

/-! ## C5: persistence -/

/-- `save()` twice in a row is the same as once: the second compare always matches. -/
theorem save_idempotent (c : GroundStationCache) : (c.save).save = c.save := by
  by_cases hp : c.hasPath = true
  · by_cases hne : (some (Sum.inr c.dictGS) : Option (String ⊕ List AirframesStation))
        ≠ c.last
    · have h1 : c.save = { c with last := some (Sum.inr c.dictGS), written := c.dictGS :: c.written } := by
        rw [GroundStationCache.save, if_pos hp, if_pos hne]
      rw [h1, GroundStationCache.save]
      rw [if_pos (show ({ c with last := some (Sum.inr c.dictGS), written := c.dictGS :: c.written } : GroundStationCache).hasPath = true from hp)]
      rw [if_neg (by simp [GroundStationCache.dictGS])]
    · have h1 : c.save = c := by rw [GroundStationCache.save, if_pos hp, if_neg hne]
      rw [h1]
      rw [GroundStationCache.save, if_pos hp, if_neg hne]
    -- both branches end with the saved state unchanged
  · have h1 : c.save = c := by rw [GroundStationCache.save, if_neg hp]
    rw [h1, GroundStationCache.save, if_neg hp]

/-- `save()` on a state whose `last` still holds raw text always writes. -/
theorem save_writes_of_last_inl (d : GroundStationCache) (raw : String)
    (hp : d.hasPath = true) (hl : d.last = some (Sum.inl raw)) :
    (d.save).written = d.dictGS :: d.written := by
  rw [GroundStationCache.save, if_pos hp, if_pos (by rw [hl]; simp)]

/-- C5 (code_bug): `load()` stores the RAW FILE TEXT in `self.last` while `save()`
compares (and stores) the parsed dict — the two are never equal — so hydrating from any
non-empty snapshot file ALWAYS performs a write (via the `save()` at the end of the
hydration merge), even when the registry content is unchanged; the claim says hydrating
and persisting with no changes writes nothing.  The second conjunct shows the programme
of the claim holds between consecutive saves: an explicit `save()` right after the
hydration writes nothing further. -/
theorem C5_hydration_always_writes (c : GroundStationCache) (raw : String)
    (payload : AirframesPayload) (now : Int) (hp : c.hasPath = true) (hr : raw ≠ "") :
    (∃ w, (c.load (some raw) payload now).written = w :: c.written) ∧
    (c.load (some raw) payload now).save = c.load (some raw) payload now := by
  have hload : c.load (some raw) payload now
      = ({ c with last := some (Sum.inl raw) }).merge_airframes payload true now := by
    rw [GroundStationCache.load, if_pos]
    simp [hp, hr]
  constructor
  · rw [hload, GroundStationCache.merge_airframes]
    exact ⟨_, save_writes_of_last_inl _ raw hp rfl⟩
  · rw [hload, GroundStationCache.merge_airframes]
    exact save_idempotent _

/-- C5 witness: hydrating a one-station snapshot performs a write; a follow-up persist
is then a no-op. -/
theorem C5_hydration_always_writes_witness :
    (∃ w, (GroundStationCache.load { hasPath := true } (some "snapshot-text")
        ⟨false, [⟨some 1, some "A", [5000], -3600⟩]⟩ 10000).written
      = w :: ({ hasPath := true } : GroundStationCache).written) ∧
    (GroundStationCache.load { hasPath := true } (some "snapshot-text")
        ⟨false, [⟨some 1, some "A", [5000], -3600⟩]⟩ 10000).save
      = GroundStationCache.load { hasPath := true } (some "snapshot-text")
        ⟨false, [⟨some 1, some "A", [5000], -3600⟩]⟩ 10000 :=
  C5_hydration_always_writes { hasPath := true } "snapshot-text"
    ⟨false, [⟨some 1, some "A", [5000], -3600⟩]⟩ 10000 (by decide) (by decide)

/-! ## C3: sample-rate selection -/

/-- `bisect.bisect_right(sample_rates, sample_size)` on an ascending list: the number of
elements `≤ sample_size`. -/
def bisect_right (l : List Int) (x : Int) : Nat :=
  (l.takeWhile fun r => decide (r ≤ x)).length

/-- `sample_rate_for(sample_size, sample_rates)`: multiply the kHz size by 1000, return
it unchanged when no rate table is configured, else pick `sample_rates[bisect_right(...)]`
or raise `ValueError` when the index falls off the end. -/
def sample_rate_for (sample_size : Int) (sample_rates : List Int) : Except Unit Int :=
  let ss := sample_size * 1000
  if sample_rates.isEmpty then .ok ss
  else
    match sample_rates.drop (bisect_right sample_rates ss) with
    | [] => .error ()
    | r :: _ => .ok r

theorem drop_bisect_right (l : List Int) (x : Int) :
    l.drop (bisect_right l x) = l.dropWhile fun r => decide (r ≤ x) := by
  induction l with
  | nil => rfl
  | cons a as ih =>
    by_cases h : a ≤ x
    · have hd : (decide (a ≤ x)) = true := decide_eq_true h
      simp only [bisect_right, List.takeWhile_cons, List.dropWhile_cons, hd, if_true,
        List.length_cons, List.drop_succ_cons]
      exact ih
    · have hd : (decide (a ≤ x)) = false := decide_eq_false h
      simp [bisect_right, List.takeWhile_cons, List.dropWhile_cons, hd]

theorem sorted_dropWhile_head_min {x : Int} :
    ∀ {l : List Int}, List.Sorted (· ≤ ·) l →
      ∀ r g, (l.dropWhile fun v => decide (v ≤ x)) = r :: g →
      x < r ∧ r ∈ l ∧ ∀ u ∈ l, x < u → r ≤ u := by
  intro l
  induction l with
  | nil => intro _ r g h; exact absurd h (by simp)
  | cons a as ih =>
    intro hs r g h
    rw [List.sorted_cons] at hs
    by_cases ha : a ≤ x
    · rw [List.dropWhile_cons, if_pos (by simp [ha])] at h
      obtain ⟨hxr, hrm, hmin⟩ := ih hs.2 r g h
      refine ⟨hxr, List.mem_cons_of_mem a hrm, ?_⟩
      intro u hu hxu
      rcases List.mem_cons.mp hu with hua | huas
      · exact absurd (hua ▸ hxu) (not_lt.mpr ha)
      · exact hmin u huas hxu
    · rw [List.dropWhile_cons, if_neg (by simp [ha])] at h
      injection h with h1 h2
      subst h1
      push_neg at ha
      refine ⟨ha, List.mem_cons_self a as, ?_⟩
      intro u hu _
      rcases List.mem_cons.mp hu with hua | huas
      · exact le_of_eq hua.symm
      · exact hs.1 u huas

/-- C3 (amended): for every required size and non-empty ascending rate table, the chosen
rate is the smallest supported rate STRICTLY GREATER than the required samples-per-second
(`bisect_right` skips an exact match), and the lookup raises precisely when no supported
rate is strictly greater than the requirement — not "greater than or equal", as the
counterexample below shows. -/
theorem C3_sample_rate_strictly_greater (sample_size : Int) (sample_rates : List Int)
    (hne : sample_rates ≠ []) (hsort : List.Sorted (· ≤ ·) sample_rates) :
    (∀ r, sample_rate_for sample_size sample_rates = .ok r →
      sample_size * 1000 < r ∧ r ∈ sample_rates ∧
      ∀ u ∈ sample_rates, sample_size * 1000 < u → r ≤ u) ∧
    (sample_rate_for sample_size sample_rates = .error () ↔
      ∀ u ∈ sample_rates, u ≤ sample_size * 1000) := by
  simp only [sample_rate_for, List.isEmpty_iff, hne, drop_bisect_right]
  rw [if_neg not_false]
  constructor
  · intro r hr
    match hdrop : sample_rates.dropWhile fun v => decide (v ≤ sample_size * 1000) with
    | [] => rw [hdrop] at hr; exact absurd hr (by simp)
    | r0 :: g =>
      rw [hdrop] at hr
      have : r0 = r := by injection hr
      subst this
      exact sorted_dropWhile_head_min hsort r0 g hdrop
  · constructor
    · intro herr
      match hdrop : sample_rates.dropWhile fun v => decide (v ≤ sample_size * 1000) with
      | r0 :: g => rw [hdrop] at herr; exact absurd herr (by simp)
      | [] =>
        intro u hu
        have := List.dropWhile_eq_nil_iff.mp hdrop u hu
        simpa using this
    · intro hall
      have : (sample_rates.dropWhile fun v => decide (v ≤ sample_size * 1000)) = [] :=
        List.dropWhile_eq_nil_iff.mpr (fun u hu => by simpa using hall u hu)
      rw [this]

/-- C3 witness: with rates `[1000000, 2000000]` and a required size of `999` kHz the
chosen rate is `1000000` — the least rate strictly above `999000`. -/
theorem C3_sample_rate_strictly_greater_witness :
    (∀ r, sample_rate_for 999 [1000000, 2000000] = .ok r →
      999 * 1000 < r ∧ r ∈ [1000000, 2000000] ∧
      ∀ u ∈ [1000000, 2000000], 999 * 1000 < u → r ≤ u) ∧
    (sample_rate_for 999 [1000000, 2000000] = .error () ↔
      ∀ u ∈ ([1000000, 2000000] : List Int), u ≤ 999 * 1000) := by
  exact C3_sample_rate_strictly_greater 999 [1000000, 2000000] (by decide) (by decide)

/-- C3 counterexample: the claim says the chosen rate is the smallest rate `≥` the
requirement, and that the lookup fails only when no rate suffices.  With a table whose
greatest rate EQUALS the requirement (`2000 kHz → 2000000 samples/sec`), a sufficient
rate exists, yet the code raises `ValueError`. -/
theorem C3_exact_match_fails_counterexample :
    sample_rate_for 2000 [2000000] = .error () ∧ (2000 * 1000 : Int) ≤ 2000000 := by
  exact ⟨rfl, by decide⟩

/-! ## GroundStationWatcher -/

/-- `FrequencyPool.add_stations(stations, pivot)`: extend with each station's
frequency list in turn. -/
def FrequencyPool.add_stations (p : FrequencyPool) (stations : List GroundStation)
    (pivot? : Option Int) : FrequencyPool :=
  stations.foldl (fun q st => q.extend st.frequencies pivot?) p

/-- `[cache[n] for n in ids]`: sequential `defaultdict` lookups, each of which may
insert a fresh default record. -/
def GroundStationCache.getByIds (c : GroundStationCache) (ids : List Int) :
    GroundStationCache × List GroundStation :=
  ids.foldl
    (fun acc i =>
      let ci := acc.1.getById i
      (ci.1, acc.2 ++ [ci.2]))
    (c, [])

/-- Watcher state and configuration.  `maximum_bandwidth` is the value
`reconcile_samples` computes from the sample-rate table; `last` is the previously
emitted frequency list and `emitted` records every call of the `on_update` callback,
most recent first. -/
structure GroundStationWatcher where
  ground_station_cache : GroundStationCache := {}
  core_ids : List Int := []
  fringe_ids : List Int := []
  skip_fill : Bool := false
  ignore_ranges : List (Int × Int) := []
  maximum_bandwidth : ℚ := 2000
  prefer : String := "none"
  last : List Int := []
  emitted : List (List Int) := []
deriving Repr, DecidableEq

/-- `create_pool()`. -/
def GroundStationWatcher.create_pool (w : GroundStationWatcher) : FrequencyPool :=
  FrequencyPool.mkPool none w.ignore_ranges (some w.maximum_bandwidth)

/-- `best_pool()`: build the ascending-pivot and descending-pivot core pools, pick by
preference or by size (ties to the low pool), then fill with fringe stations and —
unless `skip_fill` — every other station.  Returns the updated cache (the lookups can
insert default records) with the chosen pool. -/
def GroundStationWatcher.best_pool (w : GroundStationWatcher) :
    GroundStationCache × FrequencyPool :=
  let cs := w.ground_station_cache.getByIds w.core_ids
  let low_pool := (w.create_pool).add_stations cs.2 (some 0)
  let high_pool := (w.create_pool).add_stations cs.2 (some (-1))
  let actual_pool :=
    if w.prefer = "high" then high_pool
    else if w.prefer = "low" then low_pool
    else if low_pool.frequencies.length < high_pool.frequencies.length then high_pool
    else low_pool
  let fs := cs.1.getByIds w.fringe_ids
  let filled := actual_pool.add_stations fs.2 none
  let final :=
    if w.skip_fill then filled
    else filled.add_stations (fs.1.stations.map Prod.snd) none
  (fs.1, final)

/-- The low-end- or high-end-pivot core pool built by `best_pool` (pivot index `0`
resp. `-1` into the growing pool, starting at the first resp. last candidate). -/
def GroundStationWatcher.core_pool (w : GroundStationWatcher) (pivot? : Option Int) :
    FrequencyPool :=
  (w.create_pool).add_stations (w.ground_station_cache.getByIds w.core_ids).2 pivot?

/-- The fringe-then-fill steps `best_pool` applies to whichever core pool wins. -/
def GroundStationWatcher.apply_fills (w : GroundStationWatcher) (pool : FrequencyPool) :
    FrequencyPool :=
  let cs := w.ground_station_cache.getByIds w.core_ids
  let fs := cs.1.getByIds w.fringe_ids
  let filled := pool.add_stations fs.2 none
  if w.skip_fill then filled
  else filled.add_stations (fs.1.stations.map Prod.snd) none

/-- C6 (confirmed): `best_pool` builds one core pool with pivot index `0` (low end) and
one with pivot index `-1` (high end); with no global preference it keeps the high pool
exactly when it contains strictly more frequencies — ties and a larger low pool keep the
low-pivot pool — while `prefer = "high"` or `"low"` selects that pool regardless of the
count comparison.  Fringe/fill frequencies are then added into the kept pool. -/
theorem C6_best_pool_selection (w : GroundStationWatcher) :
    (w.prefer = "high" → (w.best_pool).2 = w.apply_fills (w.core_pool (some (-1)))) ∧
    (w.prefer = "low" → (w.best_pool).2 = w.apply_fills (w.core_pool (some 0))) ∧
    (w.prefer ≠ "high" → w.prefer ≠ "low" →
      ((w.core_pool (some 0)).frequencies.length
          < (w.core_pool (some (-1))).frequencies.length →
        (w.best_pool).2 = w.apply_fills (w.core_pool (some (-1)))) ∧
      ((w.core_pool (some (-1))).frequencies.length
          ≤ (w.core_pool (some 0)).frequencies.length →
        (w.best_pool).2 = w.apply_fills (w.core_pool (some 0)))) := by
  refine ⟨?_, ?_, ?_⟩
  · intro hp
    simp [GroundStationWatcher.best_pool, GroundStationWatcher.apply_fills,
      GroundStationWatcher.core_pool, hp]
  · intro hp
    simp [GroundStationWatcher.best_pool, GroundStationWatcher.apply_fills,
      GroundStationWatcher.core_pool, hp]
  · intro hh hl
    constructor
    · intro hcmp
      simp only [GroundStationWatcher.core_pool] at hcmp
      simp only [GroundStationWatcher.best_pool, GroundStationWatcher.apply_fills,
        GroundStationWatcher.core_pool]
      rw [if_neg hh, if_neg hl, if_pos hcmp]
    · intro hcmp
      simp only [GroundStationWatcher.core_pool] at hcmp
      simp only [GroundStationWatcher.best_pool, GroundStationWatcher.apply_fills,
        GroundStationWatcher.core_pool]
      rw [if_neg hh, if_neg hl, if_neg (not_lt.mpr hcmp)]

/-- A small concrete watcher: one core station (id 1) with two frequencies. -/
def exampleWatcher : GroundStationWatcher :=
  { ground_station_cache :=
      { stations := [(some 1,
          { last_updated := 5000, frequencies := [5000, 5500], name := some "A",
            gsid := some 1 })] }
    core_ids := [1]
    skip_fill := true }

/-- C6 witness: with no preference and equal pool sizes, the low-pivot pool is kept. -/
theorem C6_best_pool_selection_witness :
    (exampleWatcher.best_pool).2
      = exampleWatcher.apply_fills (exampleWatcher.core_pool (some 0)) :=
  ((C6_best_pool_selection exampleWatcher).2.2 (by decide) (by decide)).2 (by decide)

/-! ## C2: refresh and the run loop -/

/-- `parse_airframes(data)`: merge the payload into a fresh in-memory cache (no path,
so its `save()` is a no-op). -/
def parse_airframes (data : AirframesPayload) (now : Int) : GroundStationCache :=
  GroundStationCache.merge_airframes {} data false now

/-- The registry state after the `refresh()` source loop has merged EVERY source in
priority order: the registry's own cached/pruned view first (`pruned_dict()`, which
prunes once more after the standalone `prune_expired()`), then each external payload —
the remote directory, each configured backup, and the static fallback table; a failed
fetch contributes the empty payload. -/
def GroundStationWatcher.merged_cache (w : GroundStationWatcher)
    (external : List AirframesPayload) (now : Int) : GroundStationCache :=
  let c0 := w.ground_station_cache.prune_expired now
  let c1 := c0.prune_expired now
  (({ is_temporary := false, ground_stations := c1.dictGS } : AirframesPayload)
      :: external).foldl
    (fun acc p => acc.merge (parse_airframes p now) now) c1

/-- `all(self.ground_station_cache.frequencies(core_id) for core_id in self.core_ids)`:
short-circuiting, and each `frequencies()` lookup inserts a default record for a missing
integer id (the `defaultdict` side effect). -/
def GroundStationCache.all_core_frequencies (c : GroundStationCache) :
    List Int → GroundStationCache × Bool
  | [] => (c, true)
  | i :: rest =>
    let ci := c.getById i
    if ci.2.frequencies ≠ [] then ci.1.all_core_frequencies rest
    else (ci.1, false)

/-- `choose_best_frequencies()`: compute the best pool; when the resulting ordered list
differs from the previously emitted one, remember it and fire the `on_update`
callback. -/
def GroundStationWatcher.choose_best_frequencies (w : GroundStationWatcher) :
    GroundStationWatcher × List Int :=
  let bp := w.best_pool
  let best_frequencies := bp.2.frequencies
  if best_frequencies ≠ w.last then
    ({ w with ground_station_cache := bp.1, last := best_frequencies, emitted := best_frequencies :: w.emitted }, best_frequencies)
  else ({ w with ground_station_cache := bp.1 }, best_frequencies)

/-- `refresh()`: prune, merge every source, then return the best frequency list iff
every core id now has a non-empty frequency list; otherwise raise `ValueError`
(`Except.error`). -/
def GroundStationWatcher.refresh (w : GroundStationWatcher)
    (external : List AirframesPayload) (now : Int) :
    Except Unit (GroundStationWatcher × List Int) :=
  let c := w.merged_cache external now
  let chk := c.all_core_frequencies w.core_ids
  if chk.2 then
    Except.ok (({ w with ground_station_cache := chk.1 }).choose_best_frequencies)
  else Except.error ()

/-- The `while True` body of `run()`: each timer cycle performs a `refresh()` with that
cycle's fetched payloads at that cycle's time.  `refresh()`'s `ValueError` propagates —
`run()` has no handler — so the loop aborts and later cycles never execute. -/
def GroundStationWatcher.runCycles (w : GroundStationWatcher) :
    List (List AirframesPayload × Int) → Except Unit GroundStationWatcher
  | [] => .ok w
  | (ps, now) :: rest =>
    match w.refresh ps now with
    | .error e => .error e
    | .ok (w', _) => w'.runCycles rest

/-- The frequency list the registry holds for integer id `i` (empty when absent). -/
def GroundStationCache.freqsOf (c : GroundStationCache) (i : Int) : List Int :=
  ((lookupStation c.stations (some i)).getD {}).frequencies

theorem freqsOf_getById (c : GroundStationCache) (i j : Int) :
    ((c.getById i).1).freqsOf j = c.freqsOf j := by
  rw [GroundStationCache.getById]
  match hl : lookupStation c.stations (some i) with
  | some s => rfl
  | none =>
    simp only [GroundStationCache.freqsOf, lookupStation, List.find?_append]
    match hf : c.stations.find? fun e => decide (e.1 = some j) with
    | some e => simp [hf]
    | none =>
      simp only [hf, Option.none_or]
      by_cases hij : i = j
      · subst hij
        simp [List.find?]
      · simp [List.find?, hij]

theorem getById_snd (c : GroundStationCache) (i : Int) :
    ((c.getById i).2).frequencies = c.freqsOf i := by
  rw [GroundStationCache.getById, GroundStationCache.freqsOf]
  match hl : lookupStation c.stations (some i) with
  | some s => rfl
  | none => rfl

theorem list_all_ext {l : List Int} {f g : Int → Bool} (h : ∀ x ∈ l, f x = g x) :
    l.all f = l.all g := by
  induction l with
  | nil => rfl
  | cons a as ih =>
    rw [List.all_cons, List.all_cons, h a (List.mem_cons_self a as),
      ih fun x hx => h x (List.mem_cons_of_mem a hx)]

theorem all_core_frequencies_spec :
    ∀ (ids : List Int) (c : GroundStationCache),
      (c.all_core_frequencies ids).2
        = ids.all fun i => decide (c.freqsOf i ≠ []) := by
  intro ids
  induction ids with
  | nil => intro c; rfl
  | cons i rest ih =>
    intro c
    simp only [GroundStationCache.all_core_frequencies]
    by_cases hf : ((c.getById i).2).frequencies ≠ []
    · rw [if_pos hf, ih]
      have hfl : c.freqsOf i ≠ [] := by rw [← getById_snd]; exact hf
      rw [List.all_cons, decide_eq_true hfl, Bool.true_and]
      exact list_all_ext fun j hj => by rw [freqsOf_getById]
    · rw [if_neg hf]
      have hfl : ¬ (c.freqsOf i ≠ []) := by rw [← getById_snd]; exact hf
      rw [List.all_cons, decide_eq_false hfl, Bool.false_and]

/-- C2 (amended): `refresh()` merges every source in priority order into the registry
regardless of whether an earlier source already satisfied all core stations (the merged
registry is `merged_cache`, the fold over ALL sources), and it succeeds — computing the
best frequency list — if and only if every core station id then has a non-empty
frequency list; BUT a no-valid-selection failure IS fatal to the periodic run loop: the
`ValueError` propagates out of `run()`'s `while True` loop, which has no handler, so no
later timer tick ever executes. -/
theorem C2_refresh_iff_and_fatal (w : GroundStationWatcher)
    (external : List AirframesPayload) (now : Int)
    (rest : List (List AirframesPayload × Int)) :
    ((∃ r, w.refresh external now = .ok r) ↔
      ∀ i ∈ w.core_ids, (w.merged_cache external now).freqsOf i ≠ []) ∧
    (w.refresh external now = .error () →
      w.runCycles ((external, now) :: rest) = .error ()) := by
  constructor
  · simp only [GroundStationWatcher.refresh]
    by_cases hc : ((w.merged_cache external now).all_core_frequencies w.core_ids).2 = true
    · rw [if_pos hc]
      constructor
      · intro _
        rw [all_core_frequencies_spec] at hc
        intro i hi
        have := List.all_eq_true.mp hc i hi
        simpa using this
      · intro _
        exact ⟨_, rfl⟩
    · rw [if_neg hc]
      constructor
      · intro hex
        obtain ⟨r, hr⟩ := hex
        exact absurd hr (by simp)
      · intro hall
        exfalso
        apply hc
        rw [all_core_frequencies_spec]
        exact List.all_eq_true.mpr fun i hi => decide_eq_true (hall i hi)
  · intro herr
    simp [GroundStationWatcher.runCycles, herr]

/-- C2 witness: a cycle whose sources leave the single core station without frequencies
makes `refresh` fail, and the loop aborts immediately. -/
theorem C2_refresh_iff_and_fatal_witness :
    GroundStationWatcher.runCycles { core_ids := [2] } [([], 50000)] = .error () :=
  (C2_refresh_iff_and_fatal { core_ids := [2] } [] 50000 []).2 rfl

/-- C2 counterexample: with core id 1, a first cycle whose fetches all came back empty
fails, and the run loop terminates with the error — the second timer tick, whose
directory payload WOULD satisfy the core station (its lone `refresh` succeeds), never
executes; the claim said a no-valid-selection failure is never fatal and is retried at
the next tick. -/
theorem C2_failure_fatal_counterexample :
    GroundStationWatcher.refresh { core_ids := [1] } [⟨false, []⟩] 100000 = .error () ∧
    (GroundStationWatcher.refresh { core_ids := [1] }
        [⟨false, [⟨some 1, some "X", [5000], 100000⟩]⟩] 100000).isOk = true ∧
    GroundStationWatcher.runCycles { core_ids := [1] }
        [([⟨false, []⟩], 100000),
         ([⟨false, [⟨some 1, some "X", [5000], 100000⟩]⟩], 100000)]
      = .error () := by
  refine ⟨rfl, rfl, rfl⟩

end Dumbhfdl
